import Mathlib

/-!
Shallow embedding of the calendar/daily aggregation engine of the
`ts-memo-api` repository (Express + PostgreSQL, `src/src/index.ts`, with an
earlier revision in `src/unnamed/part_000`).

Modelling conventions:
* Calendar dates are represented by `Nat`, the number of days since
  1970-01-01 (UTC).  The source handles dates as validated `YYYY-MM-DD`
  strings interpreted at UTC midnight; for such strings, lexicographic string
  comparison (used by the source for `start_date <= date`, `dateKey > todayUtc`
  and SQL `date` comparisons) agrees with the chronological order, i.e. with
  `≤` on day numbers, and `setUTCDate(getUTCDate() + i)` is `+ i` on day
  numbers.  JavaScript's `getUTCDay()` (0 = Sunday .. 6 = Saturday) is
  `(d + 4) % 7` since 1970-01-01 was a Thursday.
* UUIDs are abstracted as `Nat` identifiers.
* JS numbers holding minute counts are `Int` (the handlers validate
  `Number.isInteger` and `>= 1`).
* Database tables are Lean lists of rows; SQL `WHERE` clauses become list
  filters, `rowCount` becomes `List.length`, and the delete-then-insert
  transaction becomes a pure function from the database state to a
  response/state pair (errors roll back, returning the unchanged state).
-/

namespace TsMemoApi

/-- JavaScript's `new Date(value + "T00:00:00Z").getUTCDay()` for the date
that is `d` days after 1970-01-01: 0 = Sunday .. 6 = Saturday. -/
def jsWeekday (d : Nat) : Nat := (d + 4) % 7

/-- Result type of the source's `weekdayInfo` helper. -/
structure WeekdayData where
  label : String
  mask : Nat
deriving DecidableEq, Repr

/-- Function `weekdayInfo` from `src/src/index.ts` (also present verbatim in the
earlier revision `src/unnamed/part_000`): Sunday-start bit convention,
Sun = 1, Mon = 2, ..., Sat = 64.  Used by the daily-view endpoint. -/
def weekdayInfo (d : Nat) : WeekdayData :=
  match jsWeekday d with
  | 1 => ⟨"Mon", 2⟩
  | 2 => ⟨"Tue", 4⟩
  | 3 => ⟨"Wed", 8⟩
  | 4 => ⟨"Thu", 16⟩
  | 5 => ⟨"Fri", 32⟩
  | 6 => ⟨"Sat", 64⟩
  | _ => ⟨"Sun", 1⟩

/-- Function `weekdayMaskSunStart` from `src/src/index.ts`: Sunday-start bit
convention.  Used by the calendar-summary endpoint of the current revision. -/
def weekdayMaskSunStart (d : Nat) : Nat :=
  match jsWeekday d with
  | 1 => 2
  | 2 => 4
  | 3 => 8
  | 4 => 16
  | 5 => 32
  | 6 => 64
  | _ => 1

/-- Function `weekdayMaskMonStart` from the earlier revision `src/unnamed/part_000`:
Monday-start bit convention, Mon = 1, ..., Sun = 64.  Used by that
revision's calendar-summary endpoint. -/
def weekdayMaskMonStart (d : Nat) : Nat :=
  match jsWeekday d with
  | 1 => 1
  | 2 => 2
  | 3 => 4
  | 4 => 8
  | 5 => 16
  | 6 => 32
  | _ => 64

/-- A row of the `tasks` table (migration 003 + 005/006: `sort_order`,
`start_date`, `end_date`). -/
structure Task where
  id : Nat
  user_id : Nat
  child_id : Nat
  name : String
  subject : String
  default_minutes : Int
  days_mask : Nat
  is_archived : Bool
  start_date : Option Nat
  end_date : Option Nat
  sort_order : Int
deriving DecidableEq, Repr

/-- A row of the `study_logs` table (migration 004; the generated `id`
column plays no role in the modelled logic and is omitted). -/
structure StudyLog where
  user_id : Nat
  child_id : Nat
  task_id : Nat
  date : Nat
  minutes : Int
deriving DecidableEq, Repr

/-- A row of the `children` table (migration 002). -/
structure Child where
  id : Nat
  user_id : Nat
  name : String
  is_active : Bool
deriving DecidableEq, Repr

/-- The database state visible to the modelled endpoints. -/
structure Db where
  children : List Child
  tasks : List Task
  study_logs : List StudyLog
deriving DecidableEq, Repr

/-- Query `SELECT 1 FROM children WHERE id = $1 AND user_id = $2` has a row. -/
def childExists (db : Db) (userId childId : Nat) : Bool :=
  db.children.any (fun c => c.id == childId && c.user_id == userId)

/-- Condition `start_date IS NULL OR start_date <= $date` (daily-view SQL); the JS
calendar filter's `!(task.start_date && start_date > dateKey)` is the same
predicate. -/
def startOk (t : Task) (d : Nat) : Bool :=
  match t.start_date with
  | none => true
  | some s => decide (s ≤ d)

/-- Condition `end_date IS NULL OR end_date >= $date` (daily-view SQL); the JS
calendar filter's `!(task.end_date && end_date < dateKey)` is the same
predicate. -/
def endOk (t : Task) (d : Nat) : Bool :=
  match t.end_date with
  | none => true
  | some e => decide (d ≤ e)

/-- The `WHERE` clause of the daily-view task query in `src/src/index.ts`
(lines 779-790): row belongs to the child and owner, is not archived, its
mask has the weekday bit `mask` set, and the date lies in the optional
active range. -/
def dailyViewDueFilter (childId userId mask d : Nat) (t : Task) : Bool :=
  t.child_id == childId && t.user_id == userId && t.is_archived == false &&
    (t.days_mask &&& mask) != 0 && startOk t d && endOk t d

/-- The `WHERE` clause of the calendar-summary task query in
`src/src/index.ts` (child, owner, `is_archived = false`). -/
def calendarTaskRowFilter (childId userId : Nat) (t : Task) : Bool :=
  t.child_id == childId && t.user_id == userId && t.is_archived == false

/-- The JS `targetTasks` filter of the calendar-summary day loop in
`src/src/index.ts` (lines 901-912), applied to the rows fetched by
`calendarTaskRowFilter`. -/
def calendarTargetFilter (d : Nat) (t : Task) : Bool :=
  if (t.days_mask &&& weekdayMaskSunStart d) == 0 then false
  else if (match t.start_date with | some s => decide (d < s) | none => false) then false
  else if (match t.end_date with | some e => decide (e < d) | none => false) then false
  else true

/-- The complete due-check of the calendar-summary read path: SQL row filter
composed with the JS per-day filter. -/
def calendarIsDue (childId userId d : Nat) (t : Task) : Bool :=
  calendarTaskRowFilter childId userId t && calendarTargetFilter d t

/-! ## Daily view builder (`GET /api/v1/children/:childId/daily-view`) -/

/-- One element of the `tasks` array in the daily-view response. -/
structure DailyTaskEntry where
  task_id : Nat
  name : String
  subject : String
  default_minutes : Int
  days_mask : Nat
  is_done : Bool
  minutes : Int
deriving DecidableEq, Repr

/-- Query `SELECT task_id, minutes FROM study_logs WHERE child_id AND user_id AND
date` — the rows used to build the `logByTaskId` map. -/
def fetchDailyLogs (logs : List StudyLog) (childId userId d : Nat) : List StudyLog :=
  logs.filter (fun l => l.child_id == childId && l.user_id == userId && l.date == d)

/-- Lookup `logByTaskId.get(taskId)`: the JS `Map` is populated in row order with
later rows overwriting earlier ones, so a lookup returns the minutes of the
last matching row. -/
def logByTaskId (logs : List StudyLog) (taskId : Nat) : Option Int :=
  (logs.reverse.find? (fun l => l.task_id == taskId)).map (fun l => l.minutes)

/-- The per-task mapping of the daily-view handler (lines 802-824): a logged
task is emitted with `is_done = true` and the logged minutes, an unlogged one
with `is_done = false` and the task's `default_minutes`. -/
def dailyTaskEntry (dateLogs : List StudyLog) (t : Task) : DailyTaskEntry :=
  match logByTaskId dateLogs t.id with
  | some m =>
    { task_id := t.id, name := t.name, subject := t.subject,
      default_minutes := t.default_minutes, days_mask := t.days_mask,
      is_done := true, minutes := m }
  | none =>
    { task_id := t.id, name := t.name, subject := t.subject,
      default_minutes := t.default_minutes, days_mask := t.days_mask,
      is_done := false, minutes := t.default_minutes }

/-- The `tasks` array of the daily-view response: due tasks of the child
(query ordered by `sort_order ASC`), merged with the date's logs. -/
def buildDailyViewTasks (tasks : List Task) (logs : List StudyLog)
    (childId userId d : Nat) : List DailyTaskEntry :=
  let dueTasks :=
    (tasks.filter (dailyViewDueFilter childId userId (weekdayInfo d).mask d)).mergeSort
      (fun a b => decide (a.sort_order ≤ b.sort_order))
  let dateLogs := fetchDailyLogs logs childId userId d
  dueTasks.map (dailyTaskEntry dateLogs)

/-! ## Calendar summary builder (`GET /api/v1/children/:childId/calendar-summary`) -/

/-- One element of the `days` array of the calendar-summary response. -/
structure DayEntry where
  date : Nat
  status : String
  total : Nat
  done : Nat
deriving DecidableEq, Repr

/-- Status derivation of the day loop (lines 925-934): `dateKey > todayUtc`
→ white, `total == 0` → white, `done == total` → green, `done > 0` →
yellow, otherwise the initial value red. -/
def dayStatus (todayD d total done : Nat) : String :=
  if todayD < d then "white"
  else if total == 0 then "white"
  else if done == total then "green"
  else if 0 < done then "yellow"
  else "red"

/-- Value `logsByDate.get(dateKey)` as a list of task ids: the log rows of the
range fetch that fall on day `d`. -/
def doneSetForDate (rangeLogs : List StudyLog) (d : Nat) : List Nat :=
  (rangeLogs.filter (fun l => l.date == d)).map (fun l => l.task_id)

/-- The `done` counter of the day loop: stays 0 when the date has no log
entry or no due tasks, otherwise counts due tasks whose id is in the
date's logged set. -/
def dayDone (targetTasks : List Task) (doneSet : List Nat) : Nat :=
  if doneSet.isEmpty then 0
  else if targetTasks.length == 0 then 0
  else (targetTasks.filter (fun t => doneSet.contains t.id)).length

/-- One iteration of the calendar-summary day loop for day `d`. -/
def calendarDayEntry (tasks : List Task) (rangeLogs : List StudyLog)
    (todayD d : Nat) : DayEntry :=
  let targetTasks := tasks.filter (calendarTargetFilter d)
  let total := targetTasks.length
  let done := dayDone targetTasks (doneSetForDate rangeLogs d)
  { date := d, status := dayStatus todayD d total done, total := total, done := done }

/-- The `days` array: one entry per offset `i < dayCount`, at date
`fromD + i` (`current.setUTCDate(fromDate.getUTCDate() + i)`). -/
def buildCalendarDays (tasks : List Task) (rangeLogs : List StudyLog)
    (todayD fromD dayCount : Nat) : List DayEntry :=
  (List.range dayCount).map (fun i => calendarDayEntry tasks rangeLogs todayD (fromD + i))

/-- Error responses of the modelled handlers. -/
inductive ApiError where
  | invalidRequest
  | duplicateTaskId
  | notFound
  | forbidden
deriving DecidableEq, Repr

/-- Query `SELECT ... FROM study_logs WHERE child_id AND user_id AND date BETWEEN
$from AND $to` (both range endpoints inclusive). -/
def fetchLogsInRange (logs : List StudyLog) (childId userId fromD toD : Nat) :
    List StudyLog :=
  logs.filter (fun l => l.child_id == childId && l.user_id == userId &&
    decide (fromD ≤ l.date) && decide (l.date ≤ toD))

/-- The calendar-summary handler after parameter parsing: range validation
(`from ≤ to`, at most 62 days), child ownership check, then the day loop.
`todayD` is the handler's `formatUtcDate(new Date())`. -/
def calendarSummary (db : Db) (userId childId fromD toD todayD : Nat) :
    Except ApiError (List DayEntry) :=
  if toD < fromD then .error .invalidRequest
  else if 62 < toD - fromD + 1 then .error .invalidRequest
  else if !(childExists db userId childId) then .error .notFound
  else
    .ok (buildCalendarDays
      (db.tasks.filter (calendarTaskRowFilter childId userId))
      (fetchLogsInRange db.study_logs childId userId fromD toD)
      todayD fromD (toD - fromD + 1))

/-! ## Daily-log replace transaction (`PUT /api/v1/children/:childId/daily`) -/

/-- One element of the `items` payload. -/
structure ReplaceItem where
  task_id : Nat
  minutes : Int
deriving DecidableEq, Repr

/-- The pre-transaction validation loop (lines 1104-1124): reject a
`task_id` already seen (`taskIdSet`), then reject non-positive minutes.
`seen` is the set of task ids collected so far. -/
def validateItems : List ReplaceItem → List Nat → Option ApiError
  | [], _ => none
  | item :: rest, seen =>
    if seen.contains item.task_id then some .duplicateTaskId
    else if item.minutes < 1 then some .invalidRequest
    else validateItems rest (item.task_id :: seen)

/-- Value `rowCount` of `SELECT id FROM tasks WHERE user_id = $1 AND child_id = $2
AND id = ANY($3)`. -/
def tasksMatchedCount (db : Db) (userId childId : Nat) (taskIds : List Nat) : Nat :=
  (db.tasks.filter (fun t => t.user_id == userId && t.child_id == childId &&
    taskIds.contains t.id)).length

/-- Query `DELETE FROM study_logs WHERE child_id = $1 AND user_id = $2 AND
date = $3`: the surviving rows. -/
def deleteDayLogs (logs : List StudyLog) (childId userId d : Nat) : List StudyLog :=
  logs.filter (fun l => !(l.child_id == childId && l.user_id == userId && l.date == d))

/-- The bulk `INSERT INTO study_logs` rows built from the payload. -/
def insertRows (userId childId d : Nat) (items : List ReplaceItem) : List StudyLog :=
  items.map (fun it =>
    { user_id := userId, child_id := childId, task_id := it.task_id,
      date := d, minutes := it.minutes })

/-- The replace-daily-logs handler after parameter parsing (validation loop
plus the transaction body, lines 1104-1174).  The result pairs the response
(`saved_count` on success) with the stored state after the call; every error
path rolls the transaction back, leaving the state unchanged.  After a
successful validation the handler's `Array.from(taskIdSet)` equals
`items.map task_id` (the ids are pairwise distinct, in first-occurrence
order). -/
def replaceDaily (db : Db) (userId childId d : Nat) (items : List ReplaceItem) :
    Except ApiError Nat × Db :=
  match validateItems items [] with
  | some e => (.error e, db)
  | none =>
    if !(childExists db userId childId) then (.error .notFound, db)
    else
      let taskIds := items.map (fun it => it.task_id)
      if items.length > 0 && tasksMatchedCount db userId childId taskIds != taskIds.length then
        (.error .notFound, db)
      else
        (.ok items.length,
          { db with study_logs :=
              deleteDayLogs db.study_logs childId userId d ++
                insertRows userId childId d items })

/-! ## Task reorder (`PUT /api/v1/children/:childId/tasks/reorder`) -/

/-- One element of the reorder payload. -/
structure ReorderItem where
  task_id : Nat
  sort_order : Int
deriving DecidableEq, Repr

/-- The reorder validation loop: a duplicate `task_id` is rejected with
`invalid_request` (unlike the daily replace, which has a dedicated
message). -/
def validateReorder : List ReorderItem → List Nat → Bool
  | [], _ => true
  | item :: rest, seen =>
    if seen.contains item.task_id then false
    else validateReorder rest (item.task_id :: seen)

/-- The reorder handler after parameter parsing (lines 1297-1381 of
`src/src/index.ts`).  Note that its two ownership checks answer
`403 forbidden`, not `404 not_found`.  On success the matched tasks get the
payload's `sort_order` and the response carries the update `rowCount`. -/
def reorderTasks (db : Db) (userId childId : Nat) (orders : List ReorderItem) :
    Except ApiError Nat × Db :=
  if orders.isEmpty then (.error .invalidRequest, db)
  else if !(validateReorder orders []) then (.error .invalidRequest, db)
  else if !(childExists db userId childId) then (.error .forbidden, db)
  else
    let taskIds := orders.map (fun o => o.task_id)
    if tasksMatchedCount db userId childId taskIds != taskIds.length then
      (.error .forbidden, db)
    else
      let updatedTasks := db.tasks.map (fun t =>
        if t.child_id == childId && t.user_id == userId then
          match orders.find? (fun o => o.task_id == t.id) with
          | some o => { t with sort_order := o.sort_order }
          | none => t
        else t)
      (.ok (tasksMatchedCount db userId childId taskIds), { db with tasks := updatedTasks })

/-! ## Period summary builder (`GET /api/v1/children/:childId/summary`) -/

/-- Query `SELECT COALESCE(SUM(minutes), 0) ... WHERE ... date BETWEEN $3 AND $4`
over the already range-filtered rows. -/
def totalMinutes (rangeLogs : List StudyLog) : Int :=
  (rangeLogs.map (fun l => l.minutes)).sum

/-- One element of the `by_task` array of the summary response. -/
structure TaskAgg where
  task_id : Nat
  name : String
  subject : String
  minutes : Int
deriving DecidableEq, Repr

/-- Join `JOIN tasks t ON t.id = s.task_id`: each log row paired with its task
(`tasks.id` is the primary key, so `find?` picks the unique match; a row
whose task id does not resolve drops out, as in an inner join). -/
def joinedRows (tasks : List Task) (rangeLogs : List StudyLog) :
    List (StudyLog × Task) :=
  rangeLogs.filterMap (fun l =>
    (tasks.find? (fun t => t.id == l.task_id)).map (fun t => (l, t)))

/-- The distinct values of a key list, in first-occurrence order (the
grouping keys of SQL `GROUP BY`). -/
def distinctKeys : List Nat → List Nat
  | [] => []
  | k :: rest => k :: distinctKeys (rest.filter (fun x => x != k))
termination_by l => l.length
decreasing_by
  exact Nat.lt_succ_of_le (List.length_filter_le _ _)

/-- Aggregate `SUM(s.minutes)` of the `GROUP BY s.task_id` group with key `k`. -/
def groupMinutes (rows : List (StudyLog × Task)) (k : Nat) : Int :=
  ((rows.filter (fun r => r.2.id == k)).map (fun r => r.1.minutes)).sum

/-- The `by_task` array: `GROUP BY s.task_id, t.name, t.subject` over the
joined range rows (name and subject are functionally determined by the task
id through the join), `ORDER BY minutes DESC`. -/
def byTask (tasks : List Task) (rangeLogs : List StudyLog) : List TaskAgg :=
  let rows := joinedRows tasks rangeLogs
  let entries := (distinctKeys (rows.map (fun r => r.2.id))).map (fun k =>
    { task_id := k,
      name := ((rows.find? (fun r => r.2.id == k)).map (fun r => r.2.name)).getD "",
      subject := ((rows.find? (fun r => r.2.id == k)).map (fun r => r.2.subject)).getD "",
      minutes := groupMinutes rows k : TaskAgg })
  entries.mergeSort (fun a b => decide (b.minutes ≤ a.minutes))

/-! ## Sample data used by the concrete witness theorems -/

/-- A task of child 2, owner 3, recurring on Monday (Sunday-start mask 2),
active from day 4 (1970-01-05, a Monday) onwards. -/
def sampleTask : Task :=
  { id := 1, user_id := 3, child_id := 2, name := "reading", subject := "jp",
    default_minutes := 20, days_mask := 2, is_archived := false,
    start_date := some 4, end_date := none, sort_order := 0 }

/-- A child of user 2, used to exercise cross-tenant requests by user 1. -/
def foreignChildDb : Db :=
  { children := [{ id := 1, user_id := 2, name := "c", is_active := true }],
    tasks := [], study_logs := [] }

/-- A Monday task (Sunday-start mask 2) of child 1, owner 1. -/
def mondayTask : Task :=
  { id := 7, user_id := 1, child_id := 1, name := "drill",
    subject := "math", default_minutes := 20, days_mask := 2,
    is_archived := false, start_date := none, end_date := none,
    sort_order := 0 }

/-- A database with one child of user 1 and one Monday task of that child. -/
def mondayDb : Db :=
  { children := [{ id := 1, user_id := 1, name := "kid", is_active := true }],
    tasks := [mondayTask],
    study_logs := [] }

/-- The database of `mondayDb` with one log row for task 7 on day 4. -/
def mondayLoggedDb : Db :=
  { mondayDb with
    study_logs := [{ user_id := 1, child_id := 1, task_id := 7, date := 4, minutes := 35 }] }

/-- The daily-view entry expected for task 7 of `mondayLoggedDb` on day 4. -/
def mondayEntry : DailyTaskEntry :=
  { task_id := 7, name := "drill", subject := "math", default_minutes := 20,
    days_mask := 2, is_done := true, minutes := 35 }

/-- The first log row of the period-summary example: 20 minutes on day 1. -/
def twoLogsRow1 : StudyLog :=
  { user_id := 1, child_id := 1, task_id := 7, date := 1, minutes := 20 }

/-- A database with two log rows on the same task (20 and 30 minutes on two
different dates), as in the spec's period-summary example. -/
def twoLogsDb : Db :=
  { children := [{ id := 1, user_id := 1, name := "kid", is_active := true }],
    tasks := [{ id := 7, user_id := 1, child_id := 1, name := "drill",
                subject := "math", default_minutes := 20, days_mask := 127,
                is_archived := false, start_date := none, end_date := none,
                sort_order := 0 }],
    study_logs :=
      [twoLogsRow1,
       { user_id := 1, child_id := 1, task_id := 7, date := 2, minutes := 30 }] }

/-! ## Helper lemmas -/

/-- The `done` counter of a calendar day never exceeds the number of due
tasks counted into `total`. -/
theorem dayDone_le (targetTasks : List Task) (doneSet : List Nat) :
    dayDone targetTasks doneSet ≤ targetTasks.length := by
  unfold dayDone
  split
  · exact Nat.zero_le _
  · split
    · exact Nat.zero_le _
    · exact List.length_filter_le _ _

/-! ## Claim theorems -/

/-- C4 (counterexample): the claim that the daily view's weekday-to-bit
mapping equals the calendar summary's fails across the cited read paths:
at day 4 (1970-01-05, a Monday) the daily view's `weekdayInfo` produces
mask 2 while the `part_000` revision's calendar summary uses
`weekdayMaskMonStart`, which produces mask 1. -/
theorem weekday_convention_counterexample :
    (weekdayInfo 4).mask = 2 ∧ weekdayMaskMonStart 4 = 1 ∧
      ¬((weekdayInfo 4).mask = weekdayMaskMonStart 4) := by
  decide

/-- C4 (amended): within the current revision `src/src/index.ts`, the daily
view (`weekdayInfo`) and the calendar summary (`weekdayMaskSunStart`) use
one and the same Sunday-start weekday-to-bit mapping for every date, and the
produced bit lies inside the write-side mask validation range 1..127; the
superseded revision's `weekdayMaskMonStart` disagrees with that mapping at
every date. -/
theorem weekday_convention_current_revision (d : Nat) :
    (weekdayInfo d).mask = weekdayMaskSunStart d ∧
      1 ≤ weekdayMaskSunStart d ∧ weekdayMaskSunStart d ≤ 127 ∧
      weekdayMaskMonStart d ≠ (weekdayInfo d).mask := by
  have h7 : jsWeekday d < 7 := Nat.mod_lt _ (by norm_num)
  have h : jsWeekday d = 0 ∨ jsWeekday d = 1 ∨ jsWeekday d = 2 ∨ jsWeekday d = 3 ∨
      jsWeekday d = 4 ∨ jsWeekday d = 5 ∨ jsWeekday d = 6 := by omega
  rcases h with h | h | h | h | h | h | h <;>
    simp [weekdayInfo, weekdayMaskSunStart, weekdayMaskMonStart, h]

/-- C5 (code bug evidence): a cross-tenant request (caller user 1, child 1
owned by user 2) makes the task-reorder endpoint answer `403 forbidden`,
while the daily-log replace endpoint answers `404 not_found` for the very
same condition — the reorder path leaks existence instead of returning
not-found uniformly. -/
theorem reorder_cross_tenant_forbidden :
    (reorderTasks foreignChildDb 1 1 [{ task_id := 5, sort_order := 0 }]).1 =
        .error .forbidden
    ∧ (replaceDaily foreignChildDb 1 1 0 []).1 = .error .notFound := by
  constructor <;> rfl

/-- C2: the status of every emitted calendar day is derived by `dayStatus`
from today's date, the day's date, `total` and `done`, and `dayStatus`
follows exactly the claimed precedence: future day → white; else zero due
tasks → white (in particular a past day with `total = 0` is white, never
red); else all done → green; else some done → yellow; else red. -/
theorem calendar_status_precedence (tasks : List Task) (rangeLogs : List StudyLog)
    (todayD fromD n d total done : Nat) :
    (∀ e ∈ buildCalendarDays tasks rangeLogs todayD fromD n,
        e.status = dayStatus todayD e.date e.total e.done)
    ∧ (todayD < d → dayStatus todayD d total done = "white")
    ∧ (d ≤ todayD → total = 0 → dayStatus todayD d total done = "white")
    ∧ (d ≤ todayD → total ≠ 0 → done = total → dayStatus todayD d total done = "green")
    ∧ (d ≤ todayD → total ≠ 0 → done ≠ total → done ≠ 0 →
        dayStatus todayD d total done = "yellow")
    ∧ (d ≤ todayD → total ≠ 0 → done = 0 → dayStatus todayD d total done = "red") := by
  refine ⟨?_, ?_, ?_, ?_, ?_, ?_⟩
  · intro e he
    simp only [buildCalendarDays, List.mem_map] at he
    obtain ⟨i, _, rfl⟩ := he
    rfl
  · intro h
    simp [dayStatus, h]
  · intro h h0
    simp [dayStatus, Nat.not_lt.mpr h, h0]
  · intro h h0 h1
    simp [dayStatus, Nat.not_lt.mpr h, h0, h1]
  · intro h h0 h1 h2
    simp [dayStatus, Nat.not_lt.mpr h, h0, h1, Nat.pos_of_ne_zero h2]
  · intro h h0 h1
    have h2 : done ≠ total := by omega
    simp only [dayStatus, Nat.not_lt.mpr h, if_false]
    simp [h0, h1, h2]
    omega

/-- C2 (witness): a past day with `total = 0` reports white even with stray
`done`, and a future day reports white. -/
theorem calendar_status_precedence_witness :
    dayStatus 10 3 0 5 = "white" ∧ dayStatus 10 11 0 0 = "white" := by
  constructor
  · exact (calendar_status_precedence [] [] 10 0 0 3 0 5).2.2.1 (by decide) rfl
  · exact (calendar_status_precedence [] [] 10 0 0 11 0 0).2.1 (by decide)

/-- C9: every successful calendar summary emits exactly one day entry per
date of the inclusive range, in strictly ascending date order with no gaps
(entry `i` is day `from + i` and the length is the inclusive day count), and
every entry satisfies `done ≤ total`. -/
theorem calendar_days_shape (db : Db) (userId childId fromD toD todayD : Nat)
    (days : List DayEntry)
    (h : calendarSummary db userId childId fromD toD todayD = .ok days) :
    days.length = toD - fromD + 1
    ∧ (∀ i, ∀ hi : i < days.length, (days.get ⟨i, hi⟩).date = fromD + i)
    ∧ (∀ e ∈ days, e.done ≤ e.total) := by
  unfold calendarSummary at h
  split at h
  · exact absurd h (by simp)
  · split at h
    · exact absurd h (by simp)
    · split at h
      · exact absurd h (by simp)
      · have hdays : days = buildCalendarDays
            (db.tasks.filter (calendarTaskRowFilter childId userId))
            (fetchLogsInRange db.study_logs childId userId fromD toD)
            todayD fromD (toD - fromD + 1) := by
          injection h with h'
          exact h'.symm
        subst hdays
        refine ⟨by simp [buildCalendarDays], ?_, ?_⟩
        · intro i hi
          simp only [buildCalendarDays, List.get_eq_getElem, List.getElem_map,
            List.getElem_range]
          rfl
        · intro e he
          simp only [buildCalendarDays, List.mem_map] at he
          obtain ⟨i, _, rfl⟩ := he
          exact dayDone_le _ _

/-- C9 (witness): a concrete two-day summary for a child with no tasks has
the claimed shape. -/
theorem calendar_days_shape_witness :
    ([{ date := 0, status := "white", total := 0, done := 0 },
      { date := 1, status := "white", total := 0, done := 0 }] : List DayEntry).length
        = 1 - 0 + 1
    ∧ (∀ i, ∀ hi : i < ([{ date := 0, status := "white", total := 0, done := 0 },
        { date := 1, status := "white", total := 0, done := 0 }] : List DayEntry).length,
        (([{ date := 0, status := "white", total := 0, done := 0 },
          { date := 1, status := "white", total := 0, done := 0 }] : List DayEntry).get
            ⟨i, hi⟩).date = 0 + i)
    ∧ (∀ e ∈ ([{ date := 0, status := "white", total := 0, done := 0 },
        { date := 1, status := "white", total := 0, done := 0 }] : List DayEntry),
        e.done ≤ e.total) :=
  calendar_days_shape mondayDb 1 1 0 1 0 _ rfl

/-- C10: replacing the daily logs with an empty items list succeeds for an
owned child: the response is `saved_count = 0`, children and tasks are
untouched, and the stored study logs are exactly the previous ones minus
every row of that child, owner and date. -/
theorem replaceDaily_empty_items (db : Db) (userId childId d : Nat)
    (hchild : childExists db userId childId = true) :
    (replaceDaily db userId childId d []).1 = .ok 0
    ∧ (replaceDaily db userId childId d []).2.children = db.children
    ∧ (replaceDaily db userId childId d []).2.tasks = db.tasks
    ∧ (∀ l, l ∈ (replaceDaily db userId childId d []).2.study_logs ↔
        (l ∈ db.study_logs ∧
          ¬(l.child_id = childId ∧ l.user_id = userId ∧ l.date = d))) := by
  simp only [replaceDaily, validateItems, hchild, Bool.not_true, Bool.false_eq_true,
    if_false, List.length_nil, gt_iff_lt, Nat.lt_irrefl, Bool.false_and,
    insertRows, List.map_nil, List.append_nil]
  refine ⟨rfl, rfl, rfl, ?_⟩
  intro l
  simp [deleteDayLogs, List.mem_filter, and_assoc]
  tauto

/-- C10 (witness): clearing day 4 of `mondayLoggedDb` keeps the child and
task tables and removes the single log row of that day. -/
theorem replaceDaily_empty_items_witness :
    childExists mondayLoggedDb 1 1 = true
    ∧ ((replaceDaily mondayLoggedDb 1 1 4 []).1 = .ok 0
      ∧ (replaceDaily mondayLoggedDb 1 1 4 []).2.children = mondayLoggedDb.children
      ∧ (replaceDaily mondayLoggedDb 1 1 4 []).2.tasks = mondayLoggedDb.tasks
      ∧ (∀ l, l ∈ (replaceDaily mondayLoggedDb 1 1 4 []).2.study_logs ↔
          (l ∈ mondayLoggedDb.study_logs ∧
            ¬(l.child_id = 1 ∧ l.user_id = 1 ∧ l.date = 4)))) :=
  ⟨rfl, replaceDaily_empty_items mondayLoggedDb 1 1 4 rfl⟩

/-- The JS target filter of the calendar day loop holds exactly when the
weekday bit is set and the date lies within the optional active range. -/
theorem calendarTargetFilter_eq_true (d : Nat) (t : Task) :
    calendarTargetFilter d t = true ↔
      (t.days_mask &&& weekdayMaskSunStart d ≠ 0 ∧
        (∀ s ∈ t.start_date, s ≤ d) ∧ (∀ e ∈ t.end_date, d ≤ e)) := by
  unfold calendarTargetFilter
  rcases t.start_date with _ | s <;> rcases t.end_date with _ | e <;>
    simp [Option.mem_def]

/-- The daily-view SQL due filter holds exactly when the ownership columns
match and the weekday bit is set and the date lies in the active range. -/
theorem dailyViewDueFilter_eq_true (childId userId mask d : Nat) (t : Task) :
    dailyViewDueFilter childId userId mask d t = true ↔
      (t.child_id = childId ∧ t.user_id = userId ∧ t.is_archived = false ∧
        t.days_mask &&& mask ≠ 0 ∧
        (∀ s ∈ t.start_date, s ≤ d) ∧ (∀ e ∈ t.end_date, d ≤ e)) := by
  unfold dailyViewDueFilter startOk endOk
  rcases t.start_date with _ | s <;> rcases t.end_date with _ | e <;>
    simp [Option.mem_def, and_assoc]

/-- C1: for a task of the addressed child and owner, the due-check of the
daily-view read path and the due-check of the calendar-summary read path
both hold exactly when the task is not archived, the mask has the date's
weekday bit set (Sunday-start convention), `start_date` is absent or at most
the date, and `end_date` is absent or at least the date — both range
boundaries inclusive. -/
theorem isDue_read_views_iff (t : Task) (childId userId d : Nat)
    (hc : t.child_id = childId) (hu : t.user_id = userId) :
    (dailyViewDueFilter childId userId (weekdayInfo d).mask d t = true ↔
      (t.is_archived = false ∧ t.days_mask &&& (weekdayInfo d).mask ≠ 0 ∧
        (∀ s ∈ t.start_date, s ≤ d) ∧ (∀ e ∈ t.end_date, d ≤ e)))
    ∧ (calendarIsDue childId userId d t = true ↔
      (t.is_archived = false ∧ t.days_mask &&& weekdayMaskSunStart d ≠ 0 ∧
        (∀ s ∈ t.start_date, s ≤ d) ∧ (∀ e ∈ t.end_date, d ≤ e))) := by
  constructor
  · rw [dailyViewDueFilter_eq_true]
    simp [hc, hu]
  · unfold calendarIsDue calendarTaskRowFilter
    simp only [Bool.and_eq_true, calendarTargetFilter_eq_true]
    simp [hc, hu, and_assoc]

/-- C1 (witness): `sampleTask` (child 2, owner 3, Monday mask 2, active from
day 4) is due on day 4 (a Monday) under both read paths, and the boundary is
inclusive: the task is not due on day 3, the day before its start date. -/
theorem isDue_read_views_iff_witness :
    sampleTask.child_id = 2 ∧ sampleTask.user_id = 3
    ∧ (sampleTask.is_archived = false ∧
        sampleTask.days_mask &&& (weekdayInfo 4).mask ≠ 0 ∧
        (∀ s ∈ sampleTask.start_date, s ≤ 4) ∧ (∀ e ∈ sampleTask.end_date, 4 ≤ e))
    ∧ (sampleTask.is_archived = false ∧
        sampleTask.days_mask &&& weekdayMaskSunStart 4 ≠ 0 ∧
        (∀ s ∈ sampleTask.start_date, s ≤ 4) ∧ (∀ e ∈ sampleTask.end_date, 4 ≤ e))
    ∧ ¬(∀ s ∈ sampleTask.start_date, s ≤ 3) :=
  ⟨rfl, rfl,
    (isDue_read_views_iff sampleTask 2 3 4 rfl rfl).1.mp rfl,
    (isDue_read_views_iff sampleTask 2 3 4 rfl rfl).2.mp rfl,
    by simp [sampleTask]⟩

/-- The log lookup map answers some value exactly when a fetched row with
the task id exists. -/
theorem logByTaskId_isSome_iff (logs : List StudyLog) (taskId : Nat) :
    (logByTaskId logs taskId).isSome ↔ ∃ l ∈ logs, l.task_id = taskId := by
  simp [logByTaskId, List.find?_isSome, List.mem_reverse]

/-- When the log lookup answers some minutes, a fetched row with the task id
and those minutes exists. -/
theorem logByTaskId_eq_some (logs : List StudyLog) (taskId : Nat) (m : Int)
    (h : logByTaskId logs taskId = some m) :
    ∃ l ∈ logs, l.task_id = taskId ∧ l.minutes = m := by
  unfold logByTaskId at h
  rcases Option.map_eq_some'.mp h with ⟨l, hfind, hm⟩
  refine ⟨l, ?_, ?_, hm⟩
  · exact List.mem_reverse.mp (List.mem_of_find?_eq_some hfind)
  · simpa using List.find?_some hfind

/-- Membership in the daily log fetch unfolded to its row conditions. -/
theorem mem_fetchDailyLogs (logs : List StudyLog) (childId userId d : Nat)
    (l : StudyLog) :
    l ∈ fetchDailyLogs logs childId userId d ↔
      l ∈ logs ∧ l.child_id = childId ∧ l.user_id = userId ∧ l.date = d := by
  simp [fetchDailyLogs, List.mem_filter, and_assoc]

/-- C6: every task entry emitted by the daily view has `is_done = true`
exactly when a study-log row of that child, owner, date and task exists;
when done, the emitted minutes are that row's logged minutes, and when not
done they are the task's `default_minutes`. -/
theorem dailyView_is_done_minutes (tasks : List Task) (logs : List StudyLog)
    (childId userId d : Nat) (e : DailyTaskEntry)
    (he : e ∈ buildDailyViewTasks tasks logs childId userId d) :
    (e.is_done = true ↔ ∃ l ∈ logs, l.child_id = childId ∧ l.user_id = userId ∧
        l.date = d ∧ l.task_id = e.task_id)
    ∧ (e.is_done = true → ∃ l ∈ logs, l.child_id = childId ∧ l.user_id = userId ∧
        l.date = d ∧ l.task_id = e.task_id ∧ l.minutes = e.minutes)
    ∧ (e.is_done = false → e.minutes = e.default_minutes) := by
  simp only [buildDailyViewTasks, List.mem_map, List.mem_mergeSort] at he
  obtain ⟨t, _, rfl⟩ := he
  rcases hlk : logByTaskId (fetchDailyLogs logs childId userId d) t.id with _ | m
  · have hnone : ∀ l ∈ logs, ¬(l.child_id = childId ∧ l.user_id = userId ∧
        l.date = d ∧ l.task_id = t.id) := by
      intro l hl hcontra
      have hmem : l ∈ fetchDailyLogs logs childId userId d :=
        (mem_fetchDailyLogs logs childId userId d l).mpr
          ⟨hl, hcontra.1, hcontra.2.1, hcontra.2.2.1⟩
      have : (logByTaskId (fetchDailyLogs logs childId userId d) t.id).isSome :=
        (logByTaskId_isSome_iff _ _).mpr ⟨l, hmem, hcontra.2.2.2⟩
      rw [hlk] at this
      exact absurd this (by simp)
    constructor
    · simp only [dailyTaskEntry, hlk]
      constructor
      · intro hdone
        exact absurd hdone (by simp)
      · intro ⟨l, hl, hprops⟩
        exact absurd hprops (hnone l hl)
    constructor
    · simp only [dailyTaskEntry, hlk]
      intro hdone
      exact absurd hdone (by simp)
    · intro _
      simp [dailyTaskEntry, hlk]
  · obtain ⟨l, hlmem, hlid, hlm⟩ := logByTaskId_eq_some _ _ _ hlk
    have hl := (mem_fetchDailyLogs logs childId userId d l).mp hlmem
    refine ⟨?_, ?_, ?_⟩
    · simp only [dailyTaskEntry, hlk]
      constructor
      · intro _
        exact ⟨l, hl.1, hl.2.1, hl.2.2.1, hl.2.2.2, hlid⟩
      · intro _
        trivial
    · simp only [dailyTaskEntry, hlk]
      intro _
      exact ⟨l, hl.1, hl.2.1, hl.2.2.1, hl.2.2.2, hlid, hlm⟩
    · simp [dailyTaskEntry, hlk]

/-- C6 (witness): on day 4 the logged Monday task of `mondayLoggedDb` is
emitted as done with the logged 35 minutes, not the default 20. -/
theorem dailyView_is_done_minutes_witness :
    mondayEntry ∈
        buildDailyViewTasks mondayLoggedDb.tasks mondayLoggedDb.study_logs 1 1 4
    ∧ (∃ l ∈ mondayLoggedDb.study_logs, l.child_id = 1 ∧ l.user_id = 1 ∧
        l.date = 4 ∧ l.task_id = mondayEntry.task_id ∧ l.minutes = mondayEntry.minutes) := by
  have hmem : mondayEntry ∈
      buildDailyViewTasks mondayLoggedDb.tasks mondayLoggedDb.study_logs 1 1 4 := by
    simp only [buildDailyViewTasks, List.mem_map, List.mem_mergeSort]
    exact ⟨mondayTask, by decide, by decide⟩
  exact ⟨hmem,
    (dailyView_is_done_minutes mondayLoggedDb.tasks mondayLoggedDb.study_logs
      1 1 4 mondayEntry hmem).2.1 rfl⟩

/-- Deleting a day's rows distributes over list concatenation. -/
theorem deleteDayLogs_append (a b : List StudyLog) (childId userId d : Nat) :
    deleteDayLogs (a ++ b) childId userId d =
      deleteDayLogs a childId userId d ++ deleteDayLogs b childId userId d :=
  List.filter_append _ _

/-- Deleting a day's rows twice is the same as deleting them once. -/
theorem deleteDayLogs_idem (l : List StudyLog) (childId userId d : Nat) :
    deleteDayLogs (deleteDayLogs l childId userId d) childId userId d =
      deleteDayLogs l childId userId d :=
  List.filter_eq_self.mpr (fun _ ha => (List.mem_filter.mp ha).2)

/-- Every bulk-inserted row of a replace call is removed again by the same
call's day deletion. -/
theorem deleteDayLogs_insertRows (userId childId d : Nat) (items : List ReplaceItem) :
    deleteDayLogs (insertRows userId childId d items) childId userId d = [] := by
  induction items with
  | nil => rfl
  | cons it rest ih =>
    simpa [insertRows, deleteDayLogs, List.filter_cons] using ih

/-- C7: the daily-log replace is idempotent — if a replace call succeeds,
running the very same call again on the resulting state succeeds with the
same saved count and leaves the stored state exactly unchanged, and the
saved count is the number of payload items. -/
theorem replaceDaily_idempotent (db : Db) (userId childId d : Nat)
    (items : List ReplaceItem) (n : Nat) (db1 : Db)
    (h : replaceDaily db userId childId d items = (.ok n, db1)) :
    replaceDaily db1 userId childId d items = (.ok n, db1) ∧ n = items.length := by
  unfold replaceDaily at h ⊢
  rcases hv : validateItems items [] with _ | e
  · rw [hv] at h
    simp only at h ⊢
    split at h
    · exact absurd h (by simp)
    · split at h
      · exact absurd h (by simp)
      · next hok1 hok2 =>
        simp only [Prod.mk.injEq, Except.ok.injEq] at h
        obtain ⟨hn, hdb⟩ := h
        subst hdb
        subst hn
        refine ⟨?_, rfl⟩
        have h1 : childExists
            { db with study_logs := deleteDayLogs db.study_logs childId userId d ++
                insertRows userId childId d items } userId childId =
            childExists db userId childId := rfl
        have h2 : tasksMatchedCount
            { db with study_logs := deleteDayLogs db.study_logs childId userId d ++
                insertRows userId childId d items } userId childId
              (items.map (fun it => it.task_id)) =
            tasksMatchedCount db userId childId (items.map (fun it => it.task_id)) := rfl
        rw [h1, h2, if_neg hok1, if_neg hok2]
        have h3 : deleteDayLogs
            (deleteDayLogs db.study_logs childId userId d ++
              insertRows userId childId d items) childId userId d =
            deleteDayLogs db.study_logs childId userId d := by
          rw [deleteDayLogs_append, deleteDayLogs_idem, deleteDayLogs_insertRows,
            List.append_nil]
        simp only [h3]
  · rw [hv] at h
    exact absurd h (by simp)

/-- C7 (witness): logging 30 minutes on task 7 for day 5 of `mondayDb`
succeeds; repeating the identical call changes nothing and reports the same
saved count 1. -/
theorem replaceDaily_idempotent_witness :
    replaceDaily
        { mondayDb with study_logs :=
            [{ user_id := 1, child_id := 1, task_id := 7, date := 5, minutes := 30 }] }
        1 1 5 [{ task_id := 7, minutes := 30 }] =
      (.ok 1,
        { mondayDb with study_logs :=
            [{ user_id := 1, child_id := 1, task_id := 7, date := 5, minutes := 30 }] })
    ∧ 1 = ([{ task_id := 7, minutes := 30 }] : List ReplaceItem).length :=
  replaceDaily_idempotent mondayDb 1 1 5 [{ task_id := 7, minutes := 30 }] 1
    { mondayDb with study_logs :=
        [{ user_id := 1, child_id := 1, task_id := 7, date := 5, minutes := 30 }] }
    rfl

/-- A validation pass leaves the payload's task ids pairwise distinct and
disjoint from the already-seen set. -/
theorem validateItems_none_nodup (items : List ReplaceItem) :
    ∀ seen : List Nat, validateItems items seen = none →
      (items.map (fun it => it.task_id)).Nodup ∧
        ∀ a ∈ items.map (fun it => it.task_id), a ∉ seen := by
  induction items with
  | nil => intro seen _; simp
  | cons item rest ih =>
    intro seen h
    unfold validateItems at h
    by_cases hseen : seen.contains item.task_id
    · rw [if_pos hseen] at h
      exact absurd h (by simp)
    · rw [if_neg hseen] at h
      by_cases hmin : item.minutes < 1
      · rw [if_pos hmin] at h
        exact absurd h (by simp)
      · rw [if_neg hmin] at h
        obtain ⟨hnd, hdisj⟩ := ih (item.task_id :: seen) h
        constructor
        · rw [List.map_cons, List.nodup_cons]
          refine ⟨fun hmem => ?_, hnd⟩
          exact absurd (List.mem_cons_self _ _) (hdisj _ hmem)
        · intro a ha
          rw [List.map_cons, List.mem_cons] at ha
          rcases ha with rfl | ha
          · intro hc
            exact hseen (List.elem_iff.mpr hc)
          · intro hc
            exact (hdisj a ha) (List.mem_cons_of_mem _ hc)

/-- When the task ids are pairwise distinct, one unresolvable id makes the
ownership query match strictly fewer rows than there are ids. -/
theorem tasksMatchedCount_lt (db : Db) (userId childId : Nat) (taskIds : List Nat)
    (hids : (db.tasks.map (fun t => t.id)).Nodup)
    (a : Nat) (ha : a ∈ taskIds)
    (hbad : ∀ t ∈ db.tasks,
      ¬(t.id = a ∧ t.user_id = userId ∧ t.child_id = childId)) :
    tasksMatchedCount db userId childId taskIds < taskIds.length := by
  classical
  set p : Task → Bool := fun t => t.user_id == userId && t.child_id == childId &&
    taskIds.contains t.id with hp
  have hsubl : (db.tasks.filter p).Sublist db.tasks := List.filter_sublist db.tasks
  have hFnodup : ((db.tasks.filter p).map (fun t => t.id)).Nodup :=
    (hsubl.map (fun t => t.id)).nodup hids
  have hFsub : ∀ x ∈ (db.tasks.filter p).map (fun t => t.id), x ∈ taskIds.erase a := by
    intro x hx
    rw [List.mem_map] at hx
    obtain ⟨t, htmem, rfl⟩ := hx
    rw [List.mem_filter] at htmem
    have hpt := htmem.2
    rw [hp] at hpt
    simp only [Bool.and_eq_true, beq_iff_eq] at hpt
    have hxin : t.id ∈ taskIds := List.elem_iff.mp hpt.2
    have hxne : t.id ≠ a := by
      intro hcontra
      exact hbad t htmem.1 ⟨hcontra, hpt.1.1, hpt.1.2⟩
    exact (List.mem_erase_of_ne hxne).mpr hxin
  have hlen : ((db.tasks.filter p).map (fun t => t.id)).length ≤
      (taskIds.erase a).length :=
    (hFnodup.subperm hFsub).length_le
  have herase : (taskIds.erase a).length = taskIds.length - 1 :=
    List.length_erase_of_mem ha
  have hpos : 0 < taskIds.length := List.length_pos.mpr (by
    intro hnil
    rw [hnil] at ha
    exact absurd ha (List.not_mem_nil a))
  have hcount : tasksMatchedCount db userId childId taskIds =
      ((db.tasks.filter p).map (fun t => t.id)).length := by
    rw [List.length_map]
    rfl
  omega

/-- C3: a replace-daily-logs call with a validated payload that references
at least one task id not resolving to a task of the addressed child under
the caller's ownership answers not-found and leaves the stored state
exactly as it was (zero rows deleted or inserted). -/
theorem replaceDaily_unresolved_notFound (db : Db) (userId childId d : Nat)
    (items : List ReplaceItem)
    (hids : (db.tasks.map (fun t => t.id)).Nodup)
    (hval : validateItems items [] = none)
    (it : ReplaceItem) (hit : it ∈ items)
    (hbad : ∀ t ∈ db.tasks,
      ¬(t.id = it.task_id ∧ t.user_id = userId ∧ t.child_id = childId)) :
    replaceDaily db userId childId d items = (.error .notFound, db) := by
  unfold replaceDaily
  rw [hval]
  simp only
  cases hcb : childExists db userId childId with
  | false => rfl
  | true =>
    simp only [Bool.not_true, Bool.false_eq_true, if_false]
    have hlt : tasksMatchedCount db userId childId (items.map (fun x => x.task_id)) <
        (items.map (fun x => x.task_id)).length :=
      tasksMatchedCount_lt db userId childId _ hids it.task_id
        (List.mem_map_of_mem _ hit) hbad
    have hcond : (decide (items.length > 0) &&
        (tasksMatchedCount db userId childId (items.map (fun x => x.task_id)) !=
          (items.map (fun x => x.task_id)).length)) = true := by
      have hpos : 0 < items.length := List.length_pos.mpr (by
        intro hnil
        rw [hnil] at hit
        exact absurd hit (List.not_mem_nil it))
      simp only [Bool.and_eq_true, decide_eq_true_eq, bne_iff_ne, ne_eq]
      exact ⟨hpos, Nat.ne_of_lt hlt⟩
    rw [if_pos hcond]

/-- C3 (witness): with a payload referencing task 9 — which does not exist
for child 1 of `mondayDb` — the replace answers not-found and the state is
untouched. -/
theorem replaceDaily_unresolved_notFound_witness :
    (mondayDb.tasks.map (fun t => t.id)).Nodup
    ∧ validateItems [{ task_id := 9, minutes := 10 }] [] = none
    ∧ ({ task_id := 9, minutes := 10 } : ReplaceItem) ∈
        ([{ task_id := 9, minutes := 10 }] : List ReplaceItem)
    ∧ replaceDaily mondayDb 1 1 4 [{ task_id := 9, minutes := 10 }] =
        (.error .notFound, mondayDb) :=
  ⟨by decide, rfl, List.mem_cons_self _ _,
    replaceDaily_unresolved_notFound mondayDb 1 1 4 [{ task_id := 9, minutes := 10 }]
      (by decide) rfl { task_id := 9, minutes := 10 } (List.mem_cons_self _ _)
      (by decide)⟩

/-- Membership is preserved by duplicate-key removal. -/
theorem mem_distinctKeys (a : Nat) : ∀ l : List Nat, a ∈ distinctKeys l ↔ a ∈ l := by
  intro l
  induction l using distinctKeys.induct with
  | case1 => rw [distinctKeys]
  | case2 k rest ih =>
    rw [distinctKeys]
    by_cases hak : a = k
    · simp [hak]
    · simp only [List.mem_cons, ih, List.mem_filter, bne_iff_ne, ne_eq, hak,
        false_or, not_false_eq_true, and_true]

/-- Duplicate-key removal yields pairwise distinct keys. -/
theorem nodup_distinctKeys : ∀ l : List Nat, (distinctKeys l).Nodup := by
  intro l
  induction l using distinctKeys.induct with
  | case1 => rw [distinctKeys]; exact List.nodup_nil
  | case2 k rest ih =>
    rw [distinctKeys]
    refine List.nodup_cons.mpr ⟨?_, ih⟩
    rw [mem_distinctKeys]
    simp [List.mem_filter]

/-- When every range log resolves to a task (the foreign-key constraint of
`study_logs.task_id`), the joined rows carry exactly the logs' task ids. -/
theorem joinedRows_map_id (tasks : List Task) :
    ∀ rangeLogs : List StudyLog,
      (∀ l ∈ rangeLogs, ∃ t ∈ tasks, t.id = l.task_id) →
      (joinedRows tasks rangeLogs).map (fun r => r.2.id) =
        rangeLogs.map (fun l => l.task_id) := by
  intro rangeLogs h
  induction rangeLogs with
  | nil => rfl
  | cons l rest ih =>
    obtain ⟨t, htmem, htid⟩ := h l (List.mem_cons_self _ _)
    have hfind : (tasks.find? (fun x => x.id == l.task_id)).isSome :=
      List.find?_isSome.mpr ⟨t, htmem, by simp [htid]⟩
    obtain ⟨t0, hfind0⟩ := Option.isSome_iff_exists.mp hfind
    have ht0 : t0.id = l.task_id := by simpa using List.find?_some hfind0
    simp only [joinedRows, List.filterMap_cons, hfind0, Option.map_some',
      List.map_cons, ht0] at ih ⊢
    exact congrArg _ (ih (fun x hx => h x (List.mem_cons_of_mem _ hx)))

/-- When every range log resolves to a task, grouping the joined rows by a
task id collects exactly the minutes of that task's logs. -/
theorem joinedRows_filter_minutes (tasks : List Task) (k : Nat) :
    ∀ rangeLogs : List StudyLog,
      (∀ l ∈ rangeLogs, ∃ t ∈ tasks, t.id = l.task_id) →
      ((joinedRows tasks rangeLogs).filter (fun r => r.2.id == k)).map
          (fun r => r.1.minutes) =
        (rangeLogs.filter (fun l => l.task_id == k)).map (fun l => l.minutes) := by
  intro rangeLogs h
  induction rangeLogs with
  | nil => rfl
  | cons l rest ih =>
    obtain ⟨t, htmem, htid⟩ := h l (List.mem_cons_self _ _)
    have hfind : (tasks.find? (fun x => x.id == l.task_id)).isSome :=
      List.find?_isSome.mpr ⟨t, htmem, by simp [htid]⟩
    obtain ⟨t0, hfind0⟩ := Option.isSome_iff_exists.mp hfind
    have ht0 : t0.id = l.task_id := by simpa using List.find?_some hfind0
    have ihrest := ih (fun x hx => h x (List.mem_cons_of_mem _ hx))
    simp only [joinedRows, List.filterMap_cons, hfind0, Option.map_some'] at ihrest ⊢
    by_cases hk : l.task_id = k
    · simp [List.filter_cons, ht0, hk, ihrest]
    · simp [List.filter_cons, ht0, hk, ihrest]

/-- Summing the minutes of the filtered rows equals summing a pointwise
guarded contribution over all rows. -/
theorem sum_minutes_filter (p : StudyLog → Bool) :
    ∀ l : List StudyLog,
      ((l.filter p).map (fun x => x.minutes)).sum =
        (l.map (fun x => if p x then x.minutes else 0)).sum := by
  intro l
  induction l with
  | nil => rfl
  | cons a t ih =>
    by_cases hpa : p a
    · simp [List.filter_cons, hpa, ih]
    · simp [List.filter_cons, hpa, ih]

/-- C8: under the schema's foreign-key constraint (every log's task id
resolves to a task row), the period summary's `total_minutes` is the sum of
minutes over exactly the child's logs with date in the inclusive range, and
`by_task` has pairwise distinct task ids, one entry per distinct logged task
of the range, each entry's minutes being the sum of that task's logged
minutes in range, the whole array sorted descending by minutes. -/
theorem summary_total_and_byTask (db : Db) (userId childId fromD toD : Nat)
    (hfk : ∀ l ∈ db.study_logs, ∃ t ∈ db.tasks, t.id = l.task_id) :
    totalMinutes (fetchLogsInRange db.study_logs childId userId fromD toD) =
        (db.study_logs.map (fun l =>
          if l.child_id = childId ∧ l.user_id = userId ∧ fromD ≤ l.date ∧ l.date ≤ toD
          then l.minutes else 0)).sum
    ∧ ((byTask db.tasks (fetchLogsInRange db.study_logs childId userId fromD toD)).map
        (fun e => e.task_id)).Nodup
    ∧ (∀ k,
        (∃ e ∈ byTask db.tasks (fetchLogsInRange db.study_logs childId userId fromD toD),
            e.task_id = k) ↔
          ∃ l ∈ fetchLogsInRange db.study_logs childId userId fromD toD, l.task_id = k)
    ∧ (∀ e ∈ byTask db.tasks (fetchLogsInRange db.study_logs childId userId fromD toD),
        e.minutes = (((fetchLogsInRange db.study_logs childId userId fromD toD).filter
            (fun l => l.task_id == e.task_id)).map (fun l => l.minutes)).sum)
    ∧ List.Sorted (fun a b => b.minutes ≤ a.minutes)
        (byTask db.tasks (fetchLogsInRange db.study_logs childId userId fromD toD)) := by
  classical
  set R := fetchLogsInRange db.study_logs childId userId fromD toD with hR
  have hRfk : ∀ l ∈ R, ∃ t ∈ db.tasks, t.id = l.task_id := by
    intro l hl
    rw [hR, fetchLogsInRange] at hl
    exact hfk l (List.mem_filter.mp hl).1
  set rows := joinedRows db.tasks R with hrows
  have hmapid : rows.map (fun r => r.2.id) = R.map (fun l => l.task_id) :=
    joinedRows_map_id db.tasks R hRfk
  set keys := distinctKeys (rows.map (fun r => r.2.id)) with hkeysdef
  set mkAgg : Nat → TaskAgg := fun k =>
    { task_id := k,
      name := ((rows.find? (fun r => r.2.id == k)).map (fun r => r.2.name)).getD "",
      subject := ((rows.find? (fun r => r.2.id == k)).map (fun r => r.2.subject)).getD "",
      minutes := groupMinutes rows k } with hmk
  have hbt : byTask db.tasks R =
      (keys.map mkAgg).mergeSort (fun a b => decide (b.minutes ≤ a.minutes)) := rfl
  have hperm : List.Perm (byTask db.tasks R) (keys.map mkAgg) := by
    rw [hbt]
    exact List.mergeSort_perm _ _
  refine ⟨?_, ?_, ?_, ?_, ?_⟩
  · rw [hR, fetchLogsInRange, totalMinutes, sum_minutes_filter]
    refine congrArg List.sum (List.map_congr_left ?_)
    intro x _
    refine if_congr ?_ rfl rfl
    simp [and_assoc]
  · have hids : (keys.map mkAgg).map (fun e => e.task_id) = keys := by
      rw [List.map_map]
      exact List.map_id'' (fun k => rfl) _
    have : ((byTask db.tasks R).map (fun e => e.task_id)).Perm keys := by
      rw [← hids]
      exact hperm.map _
    exact this.nodup_iff.mpr (nodup_distinctKeys _)
  · intro k
    constructor
    · intro ⟨e, hemem, hek⟩
      have : e ∈ keys.map mkAgg := hperm.mem_iff.mp hemem
      rw [List.mem_map] at this
      obtain ⟨k0, hk0, rfl⟩ := this
      have hk0k : k0 = k := hek
      subst hk0k
      rw [hkeysdef, mem_distinctKeys, hmapid, List.mem_map] at hk0
      obtain ⟨l, hl, hlk⟩ := hk0
      exact ⟨l, hl, hlk⟩
    · intro ⟨l, hl, hlk⟩
      refine ⟨mkAgg k, ?_, rfl⟩
      refine hperm.mem_iff.mpr (List.mem_map_of_mem mkAgg ?_)
      rw [hkeysdef, mem_distinctKeys, hmapid, List.mem_map]
      exact ⟨l, hl, hlk⟩
  · intro e hemem
    have : e ∈ keys.map mkAgg := hperm.mem_iff.mp hemem
    rw [List.mem_map] at this
    obtain ⟨k0, _, rfl⟩ := this
    show groupMinutes rows k0 = _
    rw [groupMinutes, hrows, joinedRows_filter_minutes db.tasks k0 R hRfk]
  · have htrans : ∀ a b c : TaskAgg,
        decide (b.minutes ≤ a.minutes) → decide (c.minutes ≤ b.minutes) →
          decide (c.minutes ≤ a.minutes) := by
      intro a b c hab hbc
      simp only [decide_eq_true_eq] at *
      exact le_trans hbc hab
    have htotal : ∀ a b : TaskAgg,
        decide (b.minutes ≤ a.minutes) || decide (a.minutes ≤ b.minutes) := by
      intro a b
      simp only [Bool.or_eq_true, decide_eq_true_eq]
      exact le_total _ _
    have hsorted := List.sorted_mergeSort htrans htotal (keys.map mkAgg)
    rw [hbt]
    exact hsorted.imp (fun h => by simpa using h)

/-- C8 (witness): in `twoLogsDb` (logs of 20 and 30 minutes on task 7 on two
dates in range), the range total is 50 and the single `by_task` group for
task 7 sums to 50. -/
theorem summary_total_and_byTask_witness :
    (∀ l ∈ twoLogsDb.study_logs, ∃ t ∈ twoLogsDb.tasks, t.id = l.task_id)
    ∧ totalMinutes (fetchLogsInRange twoLogsDb.study_logs 1 1 0 10) = 50
    ∧ (∃ e ∈ byTask twoLogsDb.tasks (fetchLogsInRange twoLogsDb.study_logs 1 1 0 10),
        e.task_id = 7)
    ∧ (∀ e ∈ byTask twoLogsDb.tasks (fetchLogsInRange twoLogsDb.study_logs 1 1 0 10),
        e.minutes = (((fetchLogsInRange twoLogsDb.study_logs 1 1 0 10).filter
            (fun l => l.task_id == e.task_id)).map (fun l => l.minutes)).sum)
    ∧ (((fetchLogsInRange twoLogsDb.study_logs 1 1 0 10).filter
          (fun l => l.task_id == 7)).map (fun l => l.minutes)).sum = 50 := by
  have hfk : ∀ l ∈ twoLogsDb.study_logs, ∃ t ∈ twoLogsDb.tasks, t.id = l.task_id := by
    decide
  have h := summary_total_and_byTask twoLogsDb 1 1 0 10 hfk
  refine ⟨hfk, ?_, ?_, h.2.2.2.1, by decide⟩
  · rw [h.1]
    decide
  · exact (h.2.2.1 7).mpr ⟨twoLogsRow1, by decide, rfl⟩

end TsMemoApi
